import Mathlib

/-!
Verification of the Task Store Service (src/index.js): a shallow embedding
of the in-memory task collection and its five HTTP operations (list, get,
create, update, delete), followed by theorems settling the specification
claims about them.
-/

namespace TaskStore

/-- A JSON-like value as far as the handlers observe it: the code only
distinguishes strings and booleans via `typeof`; every other shape
(numbers, null, arrays, objects) is rejected uniformly. -/
inductive JVal where
  | jstr (s : String)
  | jbool (b : Bool)
  | jnum (n : Int)
  | jnull
  | jother
deriving DecidableEq, Repr

/-- A task record: `{ id, title, completed }` exactly as built by the
create handler (`const newTask = { id: tasks.length + 1, title, completed }`). -/
structure Task where
  id : Int
  title : String
  completed : Bool
deriving DecidableEq, Repr

/-- A request body as seen by `const { title, completed } = req.body`:
the handlers destructure only `title` and `completed`; a client-supplied
`id` and any extra fields are carried here to show they are ignored. -/
structure Body where
  title : Option JVal
  completed : Option JVal
  clientId : Option JVal
  extra : List (String × JVal)
deriving DecidableEq, Repr

/-- What a response carries in `data`: a bare task object or an array of
tasks (the delete handler returns `tasks.splice(i, 1)`, a one-element array). -/
inductive RData where
  | one (t : Task)
  | many (l : List Task)
deriving DecidableEq, Repr

/-- The response envelope `{ success, data?, message }` together with the
HTTP status code (`res.json` without `res.status` means 200). -/
structure Resp where
  status : Nat
  success : Bool
  data : Option RData
  message : String
deriving DecidableEq, Repr

/-- Digit value of a character in a given base (10 or 16), as `parseInt`
accepts it: `0`-`9`, and for base 16 also `a`-`f` / `A`-`F`. -/
def digitVal? (base : Nat) (c : Char) : Option Nat :=
  if '0' ≤ c ∧ c ≤ '9' then
    some (c.toNat - '0'.toNat)
  else if base = 16 ∧ 'a' ≤ c ∧ c ≤ 'f' then
    some (c.toNat - 'a'.toNat + 10)
  else if base = 16 ∧ 'A' ≤ c ∧ c ≤ 'F' then
    some (c.toNat - 'A'.toNat + 10)
  else
    none

/-- Consume the longest prefix of digits in `base`, accumulating the value;
`seen` records whether at least one digit has been consumed (otherwise the
parse fails, i.e. `parseInt` returns NaN). -/
def parseIntCore (base : Nat) : List Char → Nat → Bool → Option Nat
  | [], acc, seen => if seen then some acc else none
  | c :: rest, acc, seen =>
    match digitVal? base c with
    | some d => parseIntCore base rest (acc * base + d) true
    | none => if seen then some acc else none

/-- JavaScript `parseInt(s)` with no radix argument, as used on
`req.params.id`: skip leading whitespace, an optional sign, an optional
`0x`/`0X` hex prefix, then the longest run of digits; `none` models NaN
(no digit found). Trailing non-digit characters are ignored, so the result
is the integer value of the leading numeric prefix. -/
def parseIntJS (s : String) : Option Int :=
  let cs := s.toList.dropWhile Char.isWhitespace
  let (sign, cs1) : Int × List Char :=
    match cs with
    | '-' :: rest => (-1, rest)
    | '+' :: rest => (1, rest)
    | _ => (1, cs)
  let (base, cs2) : Nat × List Char :=
    match cs1 with
    | '0' :: 'x' :: rest => (16, rest)
    | '0' :: 'X' :: rest => (16, rest)
    | _ => (10, cs1)
  (parseIntCore base cs2 0 false).map (fun n => sign * (n : Int))

/-- The predicate `t.id === parseInt(req.params.id)`: a NaN parse (`none`)
matches no task. -/
def idMatches (idStr : String) (t : Task) : Bool :=
  decide (parseIntJS idStr = some t.id)

/-- The seed collection the process starts with. -/
def seedTasks : List Task :=
  [ ⟨1, "Learn Express", false⟩,
    ⟨2, "Build a REST API", false⟩,
    ⟨3, "Test API with Postman", true⟩,
    ⟨4, "Add Swagger Documentation", false⟩,
    ⟨5, "Deploy to Server", false⟩ ]

/-- `GET /api/tasks`: the full collection in a success envelope. -/
def listTasks (tasks : List Task) : Resp :=
  ⟨200, true, some (.many tasks), "Tasks fetched successfully"⟩

/-- `GET /api/tasks/:id`: `tasks.find(t => t.id === parseInt(req.params.id))`;
404 envelope when there is no match, otherwise the task in a 200 envelope. -/
def getTask (tasks : List Task) (idStr : String) : Resp :=
  match tasks.find? (idMatches idStr) with
  | none => ⟨404, false, none, "Task not found"⟩
  | some t => ⟨200, true, some (.one t), "Task fetched successfully"⟩

/-- `POST /api/tasks`: destructure `title`/`completed`, reject with 400
unless `typeof title === 'string'` and `typeof completed === 'boolean'`;
otherwise append `{ id: tasks.length + 1, title, completed }` and answer
201 with the created task. Returns the response and the new collection. -/
def createTask (tasks : List Task) (body : Body) : Resp × List Task :=
  match body.title, body.completed with
  | some (.jstr title), some (.jbool completed) =>
    let newTask : Task := ⟨(tasks.length : Int) + 1, title, completed⟩
    (⟨201, true, some (.one newTask), "Task created successfully"⟩, tasks ++ [newTask])
  | _, _ => (⟨400, false, none, "Invalid data"⟩, tasks)

/-- Replace the first element satisfying `p` by its image under `f`
(the in-place mutation of the object returned by `tasks.find`). -/
def updateFirst (p : Task → Bool) (f : Task → Task) : List Task → List Task
  | [] => []
  | t :: ts => if p t then f t :: ts else t :: updateFirst p f ts

/-- `PUT /api/tasks/:id`: first resolve the task (404 if absent), then
validate the payload (400 if malformed), then overwrite `title` and
`completed` of the found task in place and answer 200 with it. -/
def updateTask (tasks : List Task) (idStr : String) (body : Body) : Resp × List Task :=
  match tasks.find? (idMatches idStr) with
  | none => (⟨404, false, none, "Task not found"⟩, tasks)
  | some t =>
    match body.title, body.completed with
    | some (.jstr title), some (.jbool completed) =>
      let t' : Task := ⟨t.id, title, completed⟩
      (⟨200, true, some (.one t'), "Task updated successfully"⟩,
        updateFirst (idMatches idStr) (fun u => ⟨u.id, title, completed⟩) tasks)
    | _, _ => (⟨400, false, none, "Invalid data"⟩, tasks)

/-- Remove the first element satisfying `p`, returning it and the remaining
list (`tasks.findIndex` followed by `tasks.splice(taskIndex, 1)`). -/
def removeFirst (p : Task → Bool) : List Task → Option (Task × List Task)
  | [] => none
  | t :: ts =>
    if p t then some (t, ts)
    else (removeFirst p ts).map (fun r => (r.1, t :: r.2))

/-- `DELETE /api/tasks/:id`: `findIndex` then `splice`; 404 if no match,
otherwise 200 with the removed record as a one-element array. -/
def deleteTask (tasks : List Task) (idStr : String) : Resp × List Task :=
  match removeFirst (idMatches idStr) tasks with
  | none => (⟨404, false, none, "Task not found"⟩, tasks)
  | some (t, rest) =>
    (⟨200, true, some (.many [t]), "Task deleted successfully"⟩, rest)

/-- A mutating request against the collection. -/
inductive Op where
  | create (body : Body)
  | update (idStr : String) (body : Body)
  | del (idStr : String)
deriving DecidableEq, Repr

/-- The collection state after one operation. -/
def applyOp (tasks : List Task) : Op → List Task
  | .create body => (createTask tasks body).2
  | .update idStr body => (updateTask tasks idStr body).2
  | .del idStr => (deleteTask tasks idStr).2

/-- The collection state after a sequence of operations. -/
def runOps (tasks : List Task) : List Op → List Task
  | [] => tasks
  | op :: ops => runOps (applyOp tasks op) ops

/-- `typeof title === 'string'` on a destructured body field. -/
def isText : Option JVal → Bool
  | some (.jstr _) => true
  | _ => false

/-- `typeof completed === 'boolean'` on a destructured body field. -/
def isBoolean : Option JVal → Bool
  | some (.jbool _) => true
  | _ => false

/-- The validation both create and update perform:
`typeof title === 'string' && typeof completed === 'boolean'`. -/
def validBody (body : Body) : Bool :=
  isText body.title && isBoolean body.completed

/-- Whether an operation is a delete request. -/
def Op.isDel : Op → Bool
  | .del _ => true
  | _ => false

/-- The ids are exactly `1, …, length` in order: holds for the seed state
and is preserved by create and update (but not by delete). -/
def idsCanonical (tasks : List Task) : Prop :=
  tasks.map Task.id = (List.range tasks.length).map (fun (k : Nat) => (k : Int) + 1)

/-- A collection with a duplicated id, reachable from the seed state:
deleting task 3 shrinks the collection to length 4, so the next create
assigns id 5, colliding with the surviving task 5 (the latent bug of §9). -/
def dupTasks : List Task :=
  runOps seedTasks [.del "3", .create ⟨some (.jstr "X"), some (.jbool false), none, []⟩]

/-! ## Helper lemmas -/

/-- Under a successful parse of the path id, the match predicate compares
the task id with the parsed integer. -/
theorem idMatches_eq_of_parse {idStr : String} {i : Int}
    (h : parseIntJS idStr = some i) (t : Task) :
    idMatches idStr t = decide (t.id = i) := by
  unfold idMatches
  rw [h, decide_eq_decide]
  exact ⟨fun hh => (Option.some.injEq _ _ ▸ hh).symm, fun hh => by rw [hh]⟩

/-- A NaN parse matches no task. -/
theorem idMatches_eq_false_of_parse_none {idStr : String}
    (h : parseIntJS idStr = none) (t : Task) :
    idMatches idStr t = false := by
  simp [idMatches, h]

/-- Decomposition of a successful `find?`, together with the effect of
`updateFirst` on the same predicate. -/
theorem updateFirst_decomp (p : Task → Bool) (f : Task → Task) (l : List Task) (t : Task)
    (h : l.find? p = some t) :
    ∃ l1 l2, l = l1 ++ t :: l2 ∧ (∀ u ∈ l1, p u = false) ∧ p t = true ∧
      updateFirst p f l = l1 ++ f t :: l2 := by
  induction l with
  | nil => simp at h
  | cons a as ih =>
    by_cases hpa : p a
    · rw [List.find?_cons_of_pos _ hpa] at h
      obtain rfl : a = t := by injection h
      exact ⟨[], as, rfl, by simp, hpa, by simp [updateFirst, hpa]⟩
    · rw [List.find?_cons_of_neg _ hpa] at h
      obtain ⟨l1, l2, hl, hl1, hpt, hupd⟩ := ih h
      refine ⟨a :: l1, l2, by simp [hl], ?_, hpt, ?_⟩
      · intro u hu
        rcases List.mem_cons.mp hu with rfl | hu
        · exact Bool.eq_false_iff.mpr hpa
        · exact hl1 u hu
      · simp [updateFirst, hpa, hupd]

/-- Decomposition of a successful `removeFirst` (findIndex + splice). -/
theorem removeFirst_decomp (p : Task → Bool) (l : List Task) (t : Task) (r : List Task)
    (h : removeFirst p l = some (t, r)) :
    ∃ l1 l2, l = l1 ++ t :: l2 ∧ r = l1 ++ l2 ∧ (∀ u ∈ l1, p u = false) ∧ p t = true := by
  induction l generalizing r with
  | nil => simp [removeFirst] at h
  | cons a as ih =>
    by_cases hpa : p a
    · simp only [removeFirst, if_pos hpa] at h
      obtain ⟨rfl, rfl⟩ : a = t ∧ as = r := by
        have := h
        injection this with h1
        injection h1 with h2 h3
        exact ⟨h2, h3⟩
      exact ⟨[], as, rfl, rfl, by simp, hpa⟩
    · simp only [removeFirst, if_neg hpa] at h
      obtain ⟨⟨u, us⟩, hrec, heq⟩ := Option.map_eq_some'.mp h
      injection heq with h1 h2
      obtain rfl : u = t := h1
      obtain rfl : a :: us = r := h2
      obtain ⟨l1, l2, hl, hr, hl1, hpt⟩ := ih us hrec
      refine ⟨a :: l1, l2, by simp [hl], by simp [hr], ?_, hpt⟩
      intro v hv
      rcases List.mem_cons.mp hv with rfl | hv
      · exact Bool.eq_false_iff.mpr hpa
      · exact hl1 v hv

/-- `removeFirst` fails exactly when no element matches. -/
theorem removeFirst_eq_none (p : Task → Bool) (l : List Task) :
    removeFirst p l = none ↔ ∀ t ∈ l, p t = false := by
  induction l with
  | nil => simp [removeFirst]
  | cons a as ih =>
    by_cases hpa : p a
    · simp [removeFirst, hpa]
    · rw [show removeFirst p (a :: as) = (removeFirst p as).map (fun r => (r.1, a :: r.2)) from
        by simp [removeFirst, hpa]]
      rw [Option.map_eq_none', ih]
      constructor
      · intro hnone t ht
        rcases List.mem_cons.mp ht with rfl | ht
        · exact Bool.eq_false_iff.mpr hpa
        · exact hnone t ht
      · intro hall t ht
        exact hall t (List.mem_cons_of_mem a ht)

/-- `removeFirst` succeeds when some element matches. -/
theorem removeFirst_isSome (p : Task → Bool) (l : List Task)
    (h : ∃ t ∈ l, p t = true) : (removeFirst p l).isSome := by
  rcases hr : removeFirst p l with _ | pr
  · obtain ⟨t, ht, hpt⟩ := h
    rw [(removeFirst_eq_none p l).mp hr t ht] at hpt
    exact absurd hpt (by simp)
  · rfl

/-- `updateFirst` with an id-preserving function preserves the id sequence. -/
theorem updateFirst_map_id (p : Task → Bool) (f : Task → Task)
    (hf : ∀ t, (f t).id = t.id) (l : List Task) :
    (updateFirst p f l).map Task.id = l.map Task.id := by
  induction l with
  | nil => rfl
  | cons a as ih =>
    by_cases hpa : p a
    · simp [updateFirst, hpa, hf]
    · simp [updateFirst, hpa, ih]

/-- The invalid branch of create: any payload failing validation is
rejected with 400 and the collection untouched. -/
theorem createTask_invalid (tasks : List Task) (body : Body)
    (h : validBody body = false) :
    createTask tasks body = (⟨400, false, none, "Invalid data"⟩, tasks) := by
  unfold createTask
  split
  · rename_i title completed ht hc
    rw [validBody, ht, hc] at h
    simp [isText, isBoolean] at h
  · rfl

/-- The valid branch of create. -/
theorem createTask_valid (tasks : List Task) (body : Body) (ttl : String) (cpl : Bool)
    (ht : body.title = some (.jstr ttl)) (hc : body.completed = some (.jbool cpl)) :
    createTask tasks body =
      (⟨201, true, some (.one ⟨(tasks.length : Int) + 1, ttl, cpl⟩),
        "Task created successfully"⟩,
       tasks ++ [⟨(tasks.length : Int) + 1, ttl, cpl⟩]) := by
  unfold createTask
  rw [ht, hc]

/-- A passing `typeof title === 'string'` check exhibits the string. -/
theorem isText_true {o : Option JVal} (h : isText o = true) :
    ∃ s, o = some (.jstr s) := by
  cases o with
  | none => simp [isText] at h
  | some v =>
    cases v with
    | jstr s => exact ⟨s, rfl⟩
    | jbool b => simp [isText] at h
    | jnum n => simp [isText] at h
    | jnull => simp [isText] at h
    | jother => simp [isText] at h

/-- A passing `typeof completed === 'boolean'` check exhibits the boolean. -/
theorem isBoolean_true {o : Option JVal} (h : isBoolean o = true) :
    ∃ b, o = some (.jbool b) := by
  cases o with
  | none => simp [isBoolean] at h
  | some v =>
    cases v with
    | jstr s => simp [isBoolean] at h
    | jbool b => exact ⟨b, rfl⟩
    | jnum n => simp [isBoolean] at h
    | jnull => simp [isBoolean] at h
    | jother => simp [isBoolean] at h

/-- Create preserves canonical ids: the appended task's id is exactly the
new length. -/
theorem idsCanonical_createTask (tasks : List Task) (body : Body)
    (h : idsCanonical tasks) : idsCanonical (createTask tasks body).2 := by
  by_cases hv : validBody body = true
  · obtain ⟨h1, h2⟩ : isText body.title = true ∧ isBoolean body.completed = true := by
      simpa [validBody] using hv
    obtain ⟨ttl, hT⟩ := isText_true h1
    obtain ⟨cpl, hC⟩ := isBoolean_true h2
    rw [createTask_valid tasks body ttl cpl hT hC]
    unfold idsCanonical at h ⊢
    simp only [List.map_append, List.length_append, List.map_cons, List.map_nil,
      List.length_cons, List.length_nil]
    rw [h, List.range_succ (tasks.length), List.map_append]
    simp
  · rw [createTask_invalid tasks body (Bool.eq_false_iff.mpr hv)]
    exact h

/-- The concrete in-place mutation of update preserves every id. -/
theorem updateFirst_mk_map_id (p : Task → Bool) (ttl : String) (cpl : Bool) (l : List Task) :
    (updateFirst p (fun u => ⟨u.id, ttl, cpl⟩) l).map Task.id = l.map Task.id :=
  updateFirst_map_id p (fun u => ⟨u.id, ttl, cpl⟩) (fun _ => rfl) l

/-- Update never changes the id sequence of the collection. -/
theorem updateTask_snd_map_id (tasks : List Task) (idStr : String) (body : Body) :
    ((updateTask tasks idStr body).2).map Task.id = tasks.map Task.id := by
  unfold updateTask
  split
  · rfl
  · split
    · simp [updateFirst_mk_map_id]
    · rfl

/-- Canonicity only depends on the id sequence. -/
theorem idsCanonical_of_map_id_eq {l l' : List Task}
    (hmap : l'.map Task.id = l.map Task.id) (h : idsCanonical l) : idsCanonical l' := by
  unfold idsCanonical at h ⊢
  have hlen : l'.length = l.length := by
    have := congrArg List.length hmap
    simpa using this
  rw [hmap, hlen, h]

/-- The seed collection has canonical ids 1..5. -/
theorem idsCanonical_seed : idsCanonical seedTasks := by
  unfold idsCanonical
  decide

/-- Canonical ids are pairwise distinct. -/
theorem nodup_of_idsCanonical {l : List Task} (h : idsCanonical l) :
    (l.map Task.id).Nodup := by
  rw [h]
  exact (List.nodup_range _).map (fun a b hab => by omega)

/-- Canonicity is preserved along any delete-free run. -/
theorem runOps_canonical (ops : List Op) :
    ∀ tasks, idsCanonical tasks → (∀ op ∈ ops, op.isDel = false) →
      idsCanonical (runOps tasks ops) := by
  induction ops with
  | nil => exact fun tasks h _ => h
  | cons op ops ih =>
    intro tasks h hnd
    have hop : idsCanonical (applyOp tasks op) := by
      cases op with
      | create body => exact idsCanonical_createTask tasks body h
      | update idStr body =>
        exact idsCanonical_of_map_id_eq (updateTask_snd_map_id tasks idStr body) h
      | del idStr =>
        have := hnd (.del idStr) (List.mem_cons_self _ _)
        simp [Op.isDel] at this
    exact ih (applyOp tasks op) hop (fun o ho => hnd o (List.mem_cons_of_mem _ ho))

/-! ## Claims -/

/-- C1, counterexample: the uniqueness invariant does NOT hold over all
reachable states. From the seed state, deleting task 3 and then creating
a task assigns id `4 + 1 = 5`, which collides with the surviving task 5,
so the reached state has a duplicated id. -/
theorem c1_counterexample :
    ¬ ∀ ops : List Op, ((runOps seedTasks ops).map Task.id).Nodup :=
  fun h =>
    absurd (h [.del "3", .create ⟨some (.jstr "X"), some (.jbool false), none, []⟩])
      (by decide)

/-- C1 (amended): for every state reachable from the seed state by a
sequence of create and update operations containing no delete, no two
tasks share an id (the ids are canonical 1..length, hence pairwise
distinct); the original claim fails once deletes are allowed. -/
theorem c1_no_duplicate_ids_without_delete (ops : List Op)
    (h : ∀ op ∈ ops, op.isDel = false) :
    ((runOps seedTasks ops).map Task.id).Nodup :=
  nodup_of_idsCanonical (runOps_canonical ops seedTasks idsCanonical_seed h)

/-- Witness for C1 (amended) at a concrete delete-free run. -/
theorem c1_no_duplicate_ids_without_delete_witness :
    ((runOps seedTasks
        [.create ⟨some (.jstr "X"), some (.jbool true), none, []⟩,
         .update "2" ⟨some (.jstr "Y"), some (.jbool false), none, []⟩]).map Task.id).Nodup :=
  c1_no_duplicate_ids_without_delete _ (by decide)

/-- C2: create with a text title and boolean completed appends exactly one
task with id = previous length + 1 and the given fields, returns it in a
201 success envelope, and grows the collection by exactly one. -/
theorem c2_create_valid_appends (tasks : List Task) (body : Body) (ttl : String) (cpl : Bool)
    (ht : body.title = some (.jstr ttl)) (hc : body.completed = some (.jbool cpl)) :
    createTask tasks body =
      (⟨201, true, some (.one ⟨(tasks.length : Int) + 1, ttl, cpl⟩),
        "Task created successfully"⟩,
       tasks ++ [⟨(tasks.length : Int) + 1, ttl, cpl⟩]) ∧
    (createTask tasks body).2.length = tasks.length + 1 := by
  have he := createTask_valid tasks body ttl cpl ht hc
  refine ⟨he, ?_⟩
  rw [he]
  simp

/-- Witness for C2 at the seed state. -/
theorem c2_create_valid_appends_witness :
    createTask seedTasks ⟨some (.jstr "X"), some (.jbool false), none, []⟩ =
      (⟨201, true, some (.one ⟨6, "X", false⟩), "Task created successfully"⟩,
       seedTasks ++ [⟨6, "X", false⟩]) ∧
    (createTask seedTasks ⟨some (.jstr "X"), some (.jbool false), none, []⟩).2.length =
      seedTasks.length + 1 :=
  c2_create_valid_appends seedTasks _ "X" false rfl rfl

/-- C3, counterexample: on the reachable duplicate-id state `dupTasks`
(ids `[1, 2, 4, 5, 5]`), delete of id 5 succeeds and shrinks the
collection, yet id 5 is still retrievable by get afterwards, because
`splice` removes only the first match. -/
theorem c3_counterexample :
    (deleteTask dupTasks "5").1.success = true ∧
    (deleteTask dupTasks "5").2.length + 1 = dupTasks.length ∧
    (getTask (deleteTask dupTasks "5").2 "5").success = true ∧
    (getTask (deleteTask dupTasks "5").2 "5").status = 200 := by
  decide

/-- C3 (amended): delete on a present id answers 200 with the removed
record as a one-element collection and shrinks the collection by exactly
one; the id is no longer retrievable by get PROVIDED it occurred at most
once in the collection; delete on an absent id answers 404 and leaves the
collection unchanged. -/
theorem c3_delete_spec (tasks : List Task) (idStr : String) (i : Int)
    (hp : parseIntJS idStr = some i) :
    ((∃ t ∈ tasks, t.id = i) →
      (deleteTask tasks idStr).1.status = 200 ∧
      (deleteTask tasks idStr).1.success = true ∧
      (deleteTask tasks idStr).1.message = "Task deleted successfully" ∧
      (deleteTask tasks idStr).2.length + 1 = tasks.length ∧
      (∃ t, t ∈ tasks ∧ t.id = i ∧ (deleteTask tasks idStr).1.data = some (.many [t])) ∧
      (tasks.countP (fun t => decide (t.id = i)) ≤ 1 →
        getTask (deleteTask tasks idStr).2 idStr = ⟨404, false, none, "Task not found"⟩)) ∧
    ((∀ t ∈ tasks, t.id ≠ i) →
      deleteTask tasks idStr = (⟨404, false, none, "Task not found"⟩, tasks)) := by
  constructor
  · rintro ⟨t0, ht0, hid0⟩
    have hm0 : idMatches idStr t0 = true := by
      rw [idMatches_eq_of_parse hp]
      exact decide_eq_true hid0
    have hsome := removeFirst_isSome (idMatches idStr) tasks ⟨t0, ht0, hm0⟩
    obtain ⟨⟨t, rest⟩, hrf⟩ := Option.isSome_iff_exists.mp hsome
    obtain ⟨l1, l2, hl, hr, hl1, hpt⟩ := removeFirst_decomp _ _ _ _ hrf
    have hdel : deleteTask tasks idStr =
        (⟨200, true, some (.many [t]), "Task deleted successfully"⟩, rest) := by
      unfold deleteTask
      rw [hrf]
    have htid : t.id = i := by
      rw [idMatches_eq_of_parse hp] at hpt
      exact of_decide_eq_true hpt
    have htmem : t ∈ tasks := by
      rw [hl]
      exact List.mem_append_right l1 (List.mem_cons_self _ _)
    refine ⟨by rw [hdel], by rw [hdel], by rw [hdel], ?_, ⟨t, htmem, htid, by rw [hdel]⟩, ?_⟩
    · rw [hdel, hl, hr]
      simp only [List.length_append, List.length_cons]
      omega
    · intro hcount
      have hcnt_l1 : l1.countP (fun t => decide (t.id = i)) = 0 :=
        List.countP_eq_zero.mpr (fun u hu => by
          have := hl1 u hu
          rw [idMatches_eq_of_parse hp] at this
          simp [this])
      have hcnt_split : tasks.countP (fun t => decide (t.id = i)) =
          l1.countP (fun t => decide (t.id = i)) +
            (t :: l2).countP (fun t => decide (t.id = i)) := by
        rw [hl, List.countP_append]
      have hcnt_cons : (t :: l2).countP (fun t => decide (t.id = i)) =
          l2.countP (fun t => decide (t.id = i)) + 1 :=
        List.countP_cons_of_pos _ _ (by simp [htid])
      have hcnt_l2 : l2.countP (fun t => decide (t.id = i)) = 0 := by
        rw [hcnt_split, hcnt_l1, hcnt_cons] at hcount
        omega
      have hnone : rest.find? (idMatches idStr) = none := by
        apply List.find?_eq_none.mpr
        intro u hu
        rw [hr] at hu
        rcases List.mem_append.mp hu with hu1 | hu2
        · simp [hl1 u hu1]
        · have := List.countP_eq_zero.mp hcnt_l2 u hu2
          rw [idMatches_eq_of_parse hp]
          simpa using this
      rw [hdel]
      unfold getTask
      rw [hnone]
  · intro habs
    have hnone : removeFirst (idMatches idStr) tasks = none :=
      (removeFirst_eq_none _ _).mpr (fun t ht => by
        rw [idMatches_eq_of_parse hp]
        exact decide_eq_false (habs t ht))
    unfold deleteTask
    rw [hnone]

/-- Witness for C3 (amended) at the seed state: delete of the unique id 3
succeeds and id 3 becomes unretrievable; delete of absent id 99 is a 404. -/
theorem c3_delete_spec_witness :
    (deleteTask seedTasks "3").1.status = 200 ∧
    (deleteTask seedTasks "3").2.length + 1 = seedTasks.length ∧
    getTask (deleteTask seedTasks "3").2 "3" = ⟨404, false, none, "Task not found"⟩ ∧
    deleteTask seedTasks "99" = (⟨404, false, none, "Task not found"⟩, seedTasks) := by
  have h3 := (c3_delete_spec seedTasks "3" 3 (by decide)).1 (by decide)
  have h99 := (c3_delete_spec seedTasks "99" 99 (by decide)).2 (by decide)
  exact ⟨h3.1, h3.2.2.2.1, h3.2.2.2.2.2 (by decide), h99⟩

/-- Unfolding of the update handler once the task has been resolved. -/
theorem updateTask_eq_found (tasks : List Task) (idStr : String) (body : Body)
    (t : Task) (hf : tasks.find? (idMatches idStr) = some t) :
    updateTask tasks idStr body =
      match body.title, body.completed with
      | some (.jstr ttl), some (.jbool cpl) =>
        (⟨200, true, some (.one ⟨t.id, ttl, cpl⟩), "Task updated successfully"⟩,
         updateFirst (idMatches idStr) (fun u => ⟨u.id, ttl, cpl⟩) tasks)
      | _, _ => (⟨400, false, none, "Invalid data"⟩, tasks) := by
  unfold updateTask
  rw [hf]

/-- The update handler, when the task is found but the payload is
malformed, answers 400 and leaves the collection unchanged. -/
theorem updateTask_found_invalid (tasks : List Task) (idStr : String) (body : Body)
    (t : Task) (hf : tasks.find? (idMatches idStr) = some t)
    (h : validBody body = false) :
    updateTask tasks idStr body = (⟨400, false, none, "Invalid data"⟩, tasks) := by
  rw [updateTask_eq_found tasks idStr body t hf]
  split
  · rename_i ttl cpl hT hC
    rw [validBody, hT, hC] at h
    simp [isText, isBoolean] at h
  · rfl

/-- The update handler, when the task is found and the payload is valid,
answers 200 with the rewritten task and mutates exactly the first match. -/
theorem updateTask_found_valid (tasks : List Task) (idStr : String) (body : Body)
    (t : Task) (ttl : String) (cpl : Bool)
    (hf : tasks.find? (idMatches idStr) = some t)
    (hT : body.title = some (.jstr ttl)) (hC : body.completed = some (.jbool cpl)) :
    updateTask tasks idStr body =
      (⟨200, true, some (.one ⟨t.id, ttl, cpl⟩), "Task updated successfully"⟩,
       updateFirst (idMatches idStr) (fun u => ⟨u.id, ttl, cpl⟩) tasks) := by
  rw [updateTask_eq_found tasks idStr body t hf, hT, hC]

/-- C4: the update handler resolves existence before validity: an absent
id (including an unparsable one) yields 404 for every payload, and a
present id with a malformed payload yields 400 with no mutation. -/
theorem c4_update_existence_before_validity (tasks : List Task) (idStr : String)
    (body : Body) :
    ((∀ t ∈ tasks, parseIntJS idStr ≠ some t.id) →
      updateTask tasks idStr body = (⟨404, false, none, "Task not found"⟩, tasks)) ∧
    ((∃ t ∈ tasks, parseIntJS idStr = some t.id) → validBody body = false →
      updateTask tasks idStr body = (⟨400, false, none, "Invalid data"⟩, tasks)) := by
  constructor
  · intro habs
    have hnone : tasks.find? (idMatches idStr) = none :=
      List.find?_eq_none.mpr (fun t ht => by
        simp only [idMatches, decide_eq_true_eq]
        exact habs t ht)
    unfold updateTask
    rw [hnone]
  · rintro ⟨t, ht, hpt⟩ hv
    have hsome : (tasks.find? (idMatches idStr)).isSome :=
      List.find?_isSome.mpr ⟨t, ht, by
        simp only [idMatches, decide_eq_true_eq]
        exact hpt⟩
    obtain ⟨u, hu⟩ := Option.isSome_iff_exists.mp hsome
    exact updateTask_found_invalid tasks idStr body u hu hv

/-- Witness for C4: update of absent id 99 with a valid payload is 404;
update of present id 2 with a boolean-less payload is 400, both leaving
the seed collection unchanged. -/
theorem c4_update_existence_before_validity_witness :
    updateTask seedTasks "99" ⟨some (.jstr "A"), some (.jbool true), none, []⟩ =
      (⟨404, false, none, "Task not found"⟩, seedTasks) ∧
    updateTask seedTasks "2" ⟨some (.jstr "A"), none, none, []⟩ =
      (⟨400, false, none, "Invalid data"⟩, seedTasks) :=
  ⟨(c4_update_existence_before_validity seedTasks "99"
      ⟨some (.jstr "A"), some (.jbool true), none, []⟩).1 (by decide),
   (c4_update_existence_before_validity seedTasks "2"
      ⟨some (.jstr "A"), none, none, []⟩).2 (by decide) (by decide)⟩

/-- C5: get of a present id answers 200 with a task of that id from the
collection; get of an absent id answers 404, and an identifier that fails
to parse as an integer is treated as no match, also answering 404. -/
theorem c5_get_spec (tasks : List Task) (idStr : String) :
    (∀ i : Int, parseIntJS idStr = some i →
      ((∃ t ∈ tasks, t.id = i) →
        ∃ t, t ∈ tasks ∧ t.id = i ∧
          getTask tasks idStr = ⟨200, true, some (.one t), "Task fetched successfully"⟩) ∧
      ((∀ t ∈ tasks, t.id ≠ i) →
        getTask tasks idStr = ⟨404, false, none, "Task not found"⟩)) ∧
    (parseIntJS idStr = none →
      getTask tasks idStr = ⟨404, false, none, "Task not found"⟩) := by
  constructor
  · intro i hp
    constructor
    · rintro ⟨t, ht, hid⟩
      have hsome : (tasks.find? (idMatches idStr)).isSome :=
        List.find?_isSome.mpr ⟨t, ht, by
          rw [idMatches_eq_of_parse hp]
          exact decide_eq_true hid⟩
      obtain ⟨u, hu⟩ := Option.isSome_iff_exists.mp hsome
      have hpu := List.find?_some hu
      rw [idMatches_eq_of_parse hp] at hpu
      refine ⟨u, List.mem_of_find?_eq_some hu, of_decide_eq_true hpu, ?_⟩
      unfold getTask
      rw [hu]
    · intro habs
      have hnone : tasks.find? (idMatches idStr) = none :=
        List.find?_eq_none.mpr (fun t ht => by
          rw [idMatches_eq_of_parse hp]
          simpa using habs t ht)
      unfold getTask
      rw [hnone]
  · intro hp
    have hnone : tasks.find? (idMatches idStr) = none :=
      List.find?_eq_none.mpr (fun t ht => by
        rw [idMatches_eq_false_of_parse_none hp]
        simp)
    unfold getTask
    rw [hnone]

/-- Witness for C5 at the seed state: present id 3, absent id 99, and the
non-numeric identifier "abc". -/
theorem c5_get_spec_witness :
    (∃ t, t ∈ seedTasks ∧ t.id = 3 ∧
      getTask seedTasks "3" = ⟨200, true, some (.one t), "Task fetched successfully"⟩) ∧
    getTask seedTasks "99" = ⟨404, false, none, "Task not found"⟩ ∧
    getTask seedTasks "abc" = ⟨404, false, none, "Task not found"⟩ :=
  ⟨((c5_get_spec seedTasks "3").1 3 (by decide)).1 (by decide),
   ((c5_get_spec seedTasks "99").1 99 (by decide)).2 (by decide),
   (c5_get_spec seedTasks "abc").2 (by decide)⟩

/-- C6: create with a non-text title or a non-boolean completed (missing
fields included) answers 400 "Invalid data" and leaves the collection —
length and contents — unchanged. -/
theorem c6_create_rejects_invalid (tasks : List Task) (body : Body)
    (h : isText body.title = false ∨ isBoolean body.completed = false) :
    createTask tasks body = (⟨400, false, none, "Invalid data"⟩, tasks) := by
  apply createTask_invalid
  rcases h with h | h <;> simp [validBody, h]

/-- Witness for C6: a numeric title (and, separately, a missing completed)
is rejected at the seed state. -/
theorem c6_create_rejects_invalid_witness :
    createTask seedTasks ⟨some (.jnum 3), some (.jbool true), none, []⟩ =
      (⟨400, false, none, "Invalid data"⟩, seedTasks) ∧
    createTask seedTasks ⟨some (.jstr "X"), none, none, []⟩ =
      (⟨400, false, none, "Invalid data"⟩, seedTasks) :=
  ⟨c6_create_rejects_invalid seedTasks _ (Or.inl (by decide)),
   c6_create_rejects_invalid seedTasks _ (Or.inr (by decide))⟩

/-- C7: update of a present id with a valid payload rewrites exactly the
first task carrying that id — same id, same position, same surrounding
tasks, same collection length — and answers 200 with the rewritten task. -/
theorem c7_update_frame (tasks : List Task) (idStr : String) (body : Body)
    (i : Int) (ttl : String) (cpl : Bool)
    (hp : parseIntJS idStr = some i)
    (hT : body.title = some (.jstr ttl)) (hC : body.completed = some (.jbool cpl))
    (hex : ∃ t ∈ tasks, t.id = i) :
    ∃ pre post t,
      tasks = pre ++ t :: post ∧ t.id = i ∧ (∀ u ∈ pre, u.id ≠ i) ∧
      updateTask tasks idStr body =
        (⟨200, true, some (.one ⟨t.id, ttl, cpl⟩), "Task updated successfully"⟩,
         pre ++ (⟨t.id, ttl, cpl⟩ : Task) :: post) ∧
      (pre ++ (⟨t.id, ttl, cpl⟩ : Task) :: post).length = tasks.length := by
  obtain ⟨t0, ht0, hid0⟩ := hex
  have hsome : (tasks.find? (idMatches idStr)).isSome :=
    List.find?_isSome.mpr ⟨t0, ht0, by
      rw [idMatches_eq_of_parse hp]
      exact decide_eq_true hid0⟩
  obtain ⟨t, hf⟩ := Option.isSome_iff_exists.mp hsome
  obtain ⟨l1, l2, hl, hl1, hpt, hupd⟩ :=
    updateFirst_decomp (idMatches idStr) (fun u => ⟨u.id, ttl, cpl⟩) tasks t hf
  have htid : t.id = i := by
    rw [idMatches_eq_of_parse hp] at hpt
    exact of_decide_eq_true hpt
  refine ⟨l1, l2, t, hl, htid, ?_, ?_, ?_⟩
  · intro u hu
    have hne := hl1 u hu
    rw [idMatches_eq_of_parse hp] at hne
    simpa using hne
  · rw [updateTask_found_valid tasks idStr body t ttl cpl hf hT hC, hupd]
  · rw [hl]
    simp

/-- Witness for C7 at the seed state, updating task 2. -/
theorem c7_update_frame_witness :
    ∃ pre post t,
      seedTasks = pre ++ t :: post ∧ t.id = 2 ∧ (∀ u ∈ pre, u.id ≠ 2) ∧
      updateTask seedTasks "2" ⟨some (.jstr "New"), some (.jbool true), none, []⟩ =
        (⟨200, true, some (.one ⟨t.id, "New", true⟩), "Task updated successfully"⟩,
         pre ++ (⟨t.id, "New", true⟩ : Task) :: post) ∧
      (pre ++ (⟨t.id, "New", true⟩ : Task) :: post).length = seedTasks.length :=
  c7_update_frame seedTasks "2" _ 2 "New" true (by decide) rfl rfl (by decide)

/-- After a delete, if the deleted id occurred at most once, nothing in the
remainder matches the same path identifier. -/
theorem removeFirst_rest_no_match (p : Task → Bool) (l : List Task) (t : Task)
    (r : List Task) (hrf : removeFirst p l = some (t, r)) (hc : l.countP p ≤ 1) :
    ∀ u ∈ r, p u = false := by
  obtain ⟨l1, l2, hl, hrr, hl1, hpt⟩ := removeFirst_decomp p l t r hrf
  have h1 : l1.countP p = 0 :=
    List.countP_eq_zero.mpr (fun u hu => by simp [hl1 u hu])
  have hsplit : l.countP p = l1.countP p + (t :: l2).countP p := by
    rw [hl, List.countP_append]
  have hcons : (t :: l2).countP p = l2.countP p + 1 :=
    List.countP_cons_of_pos _ _ hpt
  have h2 : l2.countP p = 0 := by omega
  intro u hu
  rw [hrr] at hu
  rcases List.mem_append.mp hu with hu1 | hu2
  · exact hl1 u hu1
  · have := List.countP_eq_zero.mp h2 u hu2
    exact Bool.eq_false_iff.mpr this

/-- C8, counterexample: on the reachable duplicate-id state `dupTasks`
(ids `[1, 2, 4, 5, 5]`), delete of id 5 succeeds and the immediate repeat
of the same delete succeeds again with 200, not 404, with no intervening
operation. -/
theorem c8_counterexample :
    (deleteTask dupTasks "5").1.success = true ∧
    (deleteTask (deleteTask dupTasks "5").2 "5").1.success = true ∧
    (deleteTask (deleteTask dupTasks "5").2 "5").1.status = 200 := by
  decide

/-- C8 (amended): after a successful delete of an id that occurred at most
once in the collection, immediately repeating the same delete answers 404
and changes nothing; on duplicate-id states (reachable via the id-reuse
bug) the repeat can succeed instead. -/
theorem c8_delete_not_repeatable (tasks : List Task) (idStr : String) (i : Int)
    (hp : parseIntJS idStr = some i)
    (hcount : tasks.countP (fun t => decide (t.id = i)) ≤ 1)
    (hsucc : (deleteTask tasks idStr).1.success = true) :
    deleteTask (deleteTask tasks idStr).2 idStr =
      (⟨404, false, none, "Task not found"⟩, (deleteTask tasks idStr).2) := by
  rcases hrf : removeFirst (idMatches idStr) tasks with _ | ⟨t, rest⟩
  · exfalso
    unfold deleteTask at hsucc
    rw [hrf] at hsucc
    simp at hsucc
  · have hcount' : tasks.countP (idMatches idStr) ≤ 1 := by
      rw [show idMatches idStr = (fun t => decide (t.id = i)) from
        funext (fun t => idMatches_eq_of_parse hp t)]
      exact hcount
    have hnomatch := removeFirst_rest_no_match (idMatches idStr) tasks t rest hrf hcount'
    have hdel : deleteTask tasks idStr =
        (⟨200, true, some (.many [t]), "Task deleted successfully"⟩, rest) := by
      unfold deleteTask
      rw [hrf]
    have hnone : removeFirst (idMatches idStr) rest = none :=
      (removeFirst_eq_none _ _).mpr hnomatch
    rw [hdel]
    unfold deleteTask
    rw [hnone]

/-- Witness for C8 (amended): deleting the unique id 3 from the seed state
and repeating it. -/
theorem c8_delete_not_repeatable_witness :
    deleteTask (deleteTask seedTasks "3").2 "3" =
      (⟨404, false, none, "Task not found"⟩, (deleteTask seedTasks "3").2) :=
  c8_delete_not_repeatable seedTasks "3" 3 (by decide) (by decide) (by decide)

/-- C9: all three id-taking handlers resolve the path identifier with
integer-prefix parsing — e.g. `parseInt("3abc") = 3` — so any identifier
whose numeric prefix is the id of a present task resolves that task and
the operation succeeds (with a valid payload, for update). -/
theorem c9_integer_prefix_resolution (tasks : List Task) (idStr : String) (i : Int)
    (body : Body)
    (hp : parseIntJS idStr = some i)
    (hex : ∃ t ∈ tasks, t.id = i)
    (hT : isText body.title = true) (hC : isBoolean body.completed = true) :
    parseIntJS "3abc" = some 3 ∧
    (getTask tasks idStr).success = true ∧
    (updateTask tasks idStr body).1.success = true ∧
    (deleteTask tasks idStr).1.success = true := by
  obtain ⟨t0, ht0, hid0⟩ := hex
  have hm : idMatches idStr t0 = true := by
    rw [idMatches_eq_of_parse hp]
    exact decide_eq_true hid0
  have hsome : (tasks.find? (idMatches idStr)).isSome :=
    List.find?_isSome.mpr ⟨t0, ht0, hm⟩
  obtain ⟨u, hu⟩ := Option.isSome_iff_exists.mp hsome
  obtain ⟨ttl, hTT⟩ := isText_true hT
  obtain ⟨cpl, hCC⟩ := isBoolean_true hC
  refine ⟨by decide, ?_, ?_, ?_⟩
  · simp [getTask, hu]
  · rw [updateTask_found_valid tasks idStr body u ttl cpl hu hTT hCC]
  · have hrs := removeFirst_isSome (idMatches idStr) tasks ⟨t0, ht0, hm⟩
    obtain ⟨⟨t, rest⟩, hrf⟩ := Option.isSome_iff_exists.mp hrs
    simp [deleteTask, hrf]

/-- Witness for C9: the identifier "3abc" resolves task 3 of the seed
state for get, update, and delete. -/
theorem c9_integer_prefix_resolution_witness :
    parseIntJS "3abc" = some 3 ∧
    (getTask seedTasks "3abc").success = true ∧
    (updateTask seedTasks "3abc" ⟨some (.jstr "Z"), some (.jbool false), none, []⟩).1.success
      = true ∧
    (deleteTask seedTasks "3abc").1.success = true :=
  c9_integer_prefix_resolution seedTasks "3abc" 3 _ (by decide) (by decide)
    (by decide) (by decide)

/-- C10: a valid create stores and returns a task of exactly
`{id, title, completed}` with id = length + 1, and the result depends only
on the payload's `title` and `completed`: a client-supplied id or any
extra fields never influence it. -/
theorem c10_create_ignores_extraneous_fields (tasks : List Task) (body body' : Body)
    (ttl : String) (cpl : Bool)
    (hT : body.title = some (.jstr ttl)) (hC : body.completed = some (.jbool cpl)) :
    (createTask tasks body).2 = tasks ++ [⟨(tasks.length : Int) + 1, ttl, cpl⟩] ∧
    (createTask tasks body).1.data = some (.one ⟨(tasks.length : Int) + 1, ttl, cpl⟩) ∧
    (body'.title = body.title → body'.completed = body.completed →
      createTask tasks body' = createTask tasks body) := by
  have he := createTask_valid tasks body ttl cpl hT hC
  refine ⟨by rw [he], by rw [he], ?_⟩
  intro h1 h2
  unfold createTask
  rw [h1, h2]

/-- Witness for C10: a payload smuggling `id: 99` and an extra field
creates the same task as the clean payload, with id 6, at the seed state. -/
theorem c10_create_ignores_extraneous_fields_witness :
    (createTask seedTasks
        ⟨some (.jstr "X"), some (.jbool true), some (.jnum 99), [("extra", .jnull)]⟩).2 =
      seedTasks ++ [⟨6, "X", true⟩] ∧
    (createTask seedTasks
        ⟨some (.jstr "X"), some (.jbool true), some (.jnum 99), [("extra", .jnull)]⟩).1.data =
      some (.one ⟨6, "X", true⟩) ∧
    createTask seedTasks ⟨some (.jstr "X"), some (.jbool true), none, []⟩ =
      createTask seedTasks
        ⟨some (.jstr "X"), some (.jbool true), some (.jnum 99), [("extra", .jnull)]⟩ := by
  have h := c10_create_ignores_extraneous_fields seedTasks
    ⟨some (.jstr "X"), some (.jbool true), some (.jnum 99), [("extra", .jnull)]⟩
    ⟨some (.jstr "X"), some (.jbool true), none, []⟩ "X" true rfl rfl
  exact ⟨h.1, h.2.1, h.2.2 rfl rfl⟩

end TaskStore
